import Mathlib

/-!
Verification of the Zinema backend credential / password-recovery lifecycle.

Shallow embedding of:
- `src/models/userModel.ts` (the persisted User record),
- `src/dao/userDAO.ts` (Credential Store operations over a Mongo collection,
  modelled as a list of records; `findOne`/`findOneAndUpdate` act on the first
  matching record),
- `src/controllers/userController.ts` (request handlers: registerUser,
  loginUser, updateUser, requestPasswordReset, resetPassword),
- `src/utils/auth.ts` (authenticateToken middleware),
- the two validation regexes EMAIL_REGEX and PASSWORD_REGEX, compiled to
  executable character-list predicates under JavaScript regex semantics.

External collaborators (bcrypt, the jsonwebtoken library, crypto.randomBytes,
the email Notifier) are not repository code; they enter the model as explicit
parameters (hash/compare functions, random bytes, a delivery-success flag) or,
for JWT sign/verify, as a definition modelled from the spec (section 4.2).
Time is a natural number: milliseconds since epoch for the store / reset flow,
seconds for JWT claims (as in the JWT standard).
-/

namespace Zinema

/-! ## Data model (userModel.ts) -/

/-- A persisted User document (`IUser` in userModel.ts).  `resetPasswordToken`
and `resetPasswordExpires` are optional schema fields; `none` models the field
being unset (`$unset`).  The Mongo `_id` is modelled as a `Nat`. -/
structure StoredUser where
  id : Nat
  firstName : String
  lastName : String
  age : Nat
  email : String
  password : String
  resetPasswordToken : Option String := none
  resetPasswordExpires : Option Nat := none
  deriving DecidableEq, Repr

/-- The User collection, in insertion order.  `findOne` returns the first
matching document. -/
abbrev Store := List StoredUser

/-! ## DAO (userDAO.ts) -/

/-- `UserDAO.findByEmail`: `User.findOne({ email })`. -/
def findByEmail (store : Store) (email : String) : Option StoredUser :=
  store.find? (fun u => u.email == email)

/-- `UserDAO.findById`: `User.findById(id)`. -/
def findById (store : Store) (id : Nat) : Option StoredUser :=
  store.find? (fun u => u.id == id)

/-- Mongo update semantics shared by `findOneAndUpdate` / `findByIdAndUpdate`:
apply `f` to the first record satisfying `p`, leave the rest unchanged. -/
def updateFirstBy (p : StoredUser → Bool) (f : StoredUser → StoredUser) :
    Store → Store
  | [] => []
  | u :: rest => if p u then f u :: rest else u :: updateFirstBy p f rest

/-- The updatable fields of `Partial<IUser>` as passed to `UserDAO.update`.
`_id` is never updatable; `confirmPassword` is not a schema field, so mongoose
(strict mode) drops it before writing. -/
structure UpdateFields where
  firstName : Option String := none
  lastName : Option String := none
  age : Option Nat := none
  email : Option String := none
  password : Option String := none
  deriving DecidableEq, Repr

/-- Applying a partial update to a document: present fields overwrite, absent
fields are kept. -/
def applyUpdate (d : UpdateFields) (u : StoredUser) : StoredUser :=
  { u with
    firstName := d.firstName.getD u.firstName
    lastName := d.lastName.getD u.lastName
    age := d.age.getD u.age
    email := d.email.getD u.email
    password := d.password.getD u.password }

/-- `UserDAO.update`: `User.findByIdAndUpdate(id, data)` (store effect; the
returned document is not used by the handlers we verify). -/
def update (store : Store) (id : Nat) (data : UpdateFields) : Store :=
  updateFirstBy (fun u => u.id == id) (applyUpdate data) store

/-- `UserDAO.delete`: `User.findByIdAndDelete(id)` (store effect). -/
def deleteById (store : Store) (id : Nat) : Store :=
  store.filter (fun u => u.id != id)

/-- `UserDAO.setResetToken`: `findOneAndUpdate({ email },
{ resetPasswordToken: token, resetPasswordExpires: expiresAt })`. -/
def setResetToken (store : Store) (email token : String) (expiresAt : Nat) :
    Store :=
  updateFirstBy (fun u => u.email == email)
    (fun u => { u with
      resetPasswordToken := some token
      resetPasswordExpires := some expiresAt }) store

/-- `UserDAO.clearResetToken`: `findByIdAndUpdate(userId,
{ $unset: { resetPasswordToken: 1, resetPasswordExpires: 1 } })`. -/
def clearResetToken (store : Store) (userId : Nat) : Store :=
  updateFirstBy (fun u => u.id == userId)
    (fun u => { u with
      resetPasswordToken := none
      resetPasswordExpires := none }) store

/-- The match predicate of `UserDAO.findByResetToken`:
`resetPasswordToken: token, resetPasswordExpires: { $gt: new Date() }`.
An unset expiry never satisfies `$gt`. -/
def resetTokenMatches (token : String) (now : Nat) (u : StoredUser) : Bool :=
  u.resetPasswordToken == some token &&
    match u.resetPasswordExpires with
    | some e => decide (now < e)
    | none => false

/-- `UserDAO.findByResetToken`: `User.findOne({ resetPasswordToken: token,
resetPasswordExpires: { $gt: new Date() } })`. -/
def findByResetToken (store : Store) (token : String) (now : Nat) :
    Option StoredUser :=
  store.find? (resetTokenMatches token now)

/-! ## The validation regexes, compiled to character predicates

JavaScript semantics: without the `s` flag, `.` matches every character except
the four line terminators; without the `m` flag, `^`/`$` anchor to the start
and end of the whole input. -/

/-- JS line terminators (not matched by `.`). -/
def jsLineTerminator (c : Char) : Bool :=
  c == '\n' || c == '\r' || c.toNat == 0x2028 || c.toNat == 0x2029

/-- JS `.` (dot) character class. -/
def jsDot (c : Char) : Bool := !jsLineTerminator c

/-- JS `\d` (ASCII digits). -/
def jsDigit (c : Char) : Bool := '0' ≤ c && c ≤ '9'

/-- Regex class `[a-z]`. -/
def asciiLower (c : Char) : Bool := 'a' ≤ c && c ≤ 'z'

/-- Regex class `[A-Z]`. -/
def asciiUpper (c : Char) : Bool := 'A' ≤ c && c ≤ 'Z'

/-- JS `\w` (word characters). -/
def jsWordChar (c : Char) : Bool :=
  asciiLower c || asciiUpper c || jsDigit c || c == '_'

/-- Regex class `[\W_]`: a non-word character or an underscore, i.e. anything
outside `[A-Za-z0-9]`. -/
def nonWordOrUnderscore (c : Char) : Bool := !jsWordChar c || c == '_'

/-- A lookahead of the form `(?=.*X)` evaluated at the start of the input:
some character in class `cls` is reachable by skipping dot-matching
characters. -/
def dotStarLookahead (cls : Char → Bool) : List Char → Bool
  | [] => false
  | c :: rest => cls c || (jsDot c && dotStarLookahead cls rest)

/-- `PASSWORD_REGEX.test`, the compiled form of
`^(?=.*[a-z])(?=.*[A-Z])(?=.*\d)(?=.*[\W_]).{8,}$` from
userController.ts: the four lookaheads at position 0, then at least eight
dot-matching characters running to the very end of the input. -/
def PASSWORD_REGEX_test (s : String) : Bool :=
  let cs := s.data
  dotStarLookahead asciiLower cs &&
  dotStarLookahead asciiUpper cs &&
  dotStarLookahead jsDigit cs &&
  dotStarLookahead nonWordOrUnderscore cs &&
  decide (8 ≤ cs.length) && cs.all jsDot

/-- JS `\s` whitespace class. -/
def jsWhitespace (c : Char) : Bool :=
  c == ' ' || c == '\t' || c == '\n' || c == '\r' ||
  c.toNat == 0x0b || c.toNat == 0x0c || c.toNat == 0xa0 ||
  c.toNat == 0x1680 || (0x2000 ≤ c.toNat && c.toNat ≤ 0x200a) ||
  c.toNat == 0x2028 || c.toNat == 0x2029 || c.toNat == 0x202f ||
  c.toNat == 0x205f || c.toNat == 0x3000 || c.toNat == 0xfeff
/-- Regex class `[^\s@]`. -/
def emailAtom (c : Char) : Bool := !jsWhitespace c && c != '@'

/-- `EMAIL_REGEX.test`, the compiled form of `^[^\s@]+@[^\s@]+\.[^\s@]+$`:
all three classes exclude `@`, so a match must use the first `@` of the input;
before it a nonempty run of atoms, after it a run of atoms containing a dot
with at least one atom on each side. -/
def EMAIL_REGEX_test (s : String) : Bool :=
  let cs := s.data
  match cs.findIdx? (fun c => c == '@') with
  | none => false
  | some i =>
    let pre := cs.take i
    let post := cs.drop (i + 1)
    !pre.isEmpty && pre.all emailAtom && post.all emailAtom &&
      ((post.drop 1).dropLast.contains '.')

/-! ## Reset tokens: hex rendering of random bytes

`crypto.randomBytes(32).toString('hex')` in requestPasswordReset.  The random
source is external; the 32 bytes enter the model as a parameter.  Node renders
each byte as two lowercase hexadecimal digits. -/

/-- One lowercase hexadecimal digit (argument below 16). -/
def hexDigitChar (n : Nat) : Char :=
  if n < 10 then Char.ofNat ('0'.toNat + n) else Char.ofNat ('a'.toNat + (n - 10))

/-- One byte as two lowercase hexadecimal digits, high nibble first. -/
def byteToHex (b : Nat) : List Char :=
  [hexDigitChar (b / 16 % 16), hexDigitChar (b % 16)]

/-- `Buffer.toString('hex')` on a list of bytes. -/
def bytesToHex (bs : List Nat) : String :=
  ⟨bs.flatMap byteToHex⟩

/-! ## Session tokens (JWT) -/

/-- Modelled from the spec: the signed session token of section 4.2 — the
jsonwebtoken library (external to this repository) produces a token embedding
the payload `\x7b id, email \x7d`, an issued-at instant and an expiry, bound
together by a signature keyed on the process-wide secret.  Times are in
seconds. -/
structure Jwt where
  id : Nat
  email : String
  iat : Nat
  exp : Nat
  sig : String
  deriving DecidableEq, Repr

/-- Modelled from the spec: the HMAC signature of jsonwebtoken, abstracted as
an injective tagging of the secret and the signed claims. -/
def jwtSignature (secret : String) (id : Nat) (email : String)
    (iat exp : Nat) : String :=
  secret ++ ":" ++ toString id ++ ":" ++ email ++ ":" ++ toString iat ++
    ":" ++ toString exp

/-- Modelled from the spec: `jwt.sign({ id, email }, secret,
{ expiresIn: "2h" })` as called by `loginUser` — the expiry claim is the
issuance instant plus 7200 seconds. -/
def jwtSign (secret : String) (id : Nat) (email : String) (iat : Nat) : Jwt :=
  { id := id, email := email, iat := iat, exp := iat + 7200
    sig := jwtSignature secret id email iat (iat + 7200) }

/-- Modelled from the spec: `jwt.verify(token, secret)` — succeeds exactly when
the signature is valid for the claims and the current clock is strictly before
the expiry claim (jsonwebtoken raises TokenExpiredError once
`clockTimestamp >= exp`).  Verification is a pure function of the token and
the clock: no store is consulted, so no operation can revoke or refresh a
token before expiry. -/
def jwtVerify (secret : String) (t : Jwt) (now : Nat) :
    Option (Nat × String) :=
  if t.sig = jwtSignature secret t.id t.email t.iat t.exp ∧ now < t.exp then
    some (t.id, t.email)
  else none

/-! ## HTTP responses -/

/-- The JSON body a handler sends: a message object, a signed token
(`loginUser` success), or a bare user id (`registerUser` success). -/
inductive Body where
  | msg (s : String)
  | token (t : Jwt)
  | userId (id : Nat)
  deriving DecidableEq, Repr

/-- An HTTP response: status code plus JSON body. -/
structure Resp where
  status : Nat
  body : Body
  deriving DecidableEq, Repr

/-- JavaScript truthiness of an optional string field (`!x` is true for a
missing field and for the empty string). -/
def falsy : Option String → Bool
  | none => true
  | some s => s == ""

/-! ## Handlers (userController.ts) -/

/-- `UserController.requestPasswordReset`.  Parameters beyond the request
body: the store, the clock `now` (ms), the 32 random bytes drawn by
`crypto.randomBytes`, and whether the Notifier delivery succeeds
(`emailService.sendRecoveryEmail` throwing lands in the catch block).
Returns the response and the resulting store. -/
def requestPasswordReset (store : Store) (now : Nat) (rndBytes : List Nat)
    (notifierOk : Bool) (email : Option String) : Resp × Store :=
  if falsy email then
    (⟨400, .msg "Email is required"⟩, store)
  else
    let e := email.getD ""
    if !EMAIL_REGEX_test e then
      (⟨400, .msg "Invalid email format"⟩, store)
    else
      match findByEmail store e with
      | none =>
        (⟨200, .msg "If the email exists, a password reset link has been sent"⟩,
          store)
      | some _user =>
        let resetToken := bytesToHex rndBytes
        let resetExpires := now + 60 * 60 * 1000
        let store1 := setResetToken store e resetToken resetExpires
        if notifierOk then
          (⟨200, .msg "If the email exists, a password reset link has been sent"⟩,
            store1)
        else
          (⟨500, .msg "Internal server error"⟩, store1)

/-- `UserController.resetPassword`.  `hashFn` stands for
`bcrypt.hash(password, SALT_ROUNDS)` (external).  On success the handler
updates the password and then clears the reset-token fields, as two separate
DAO calls. -/
def resetPassword (hashFn : String → String) (store : Store) (now : Nat)
    (token password confirmPassword : Option String) : Resp × Store :=
  if falsy token || falsy password || falsy confirmPassword then
    (⟨400, .msg "Token, password and confirmation are required"⟩, store)
  else
    let t := token.getD ""
    let p := password.getD ""
    let cp := confirmPassword.getD ""
    if !PASSWORD_REGEX_test p then
      (⟨400, .msg "Password must have at least 8 characters long, 1 uppercase, 1 lowercase, 1 number and 1 special character"⟩,
        store)
    else if p != cp then
      (⟨400, .msg "Passwords do not match"⟩, store)
    else
      match findByResetToken store t now with
      | none => (⟨400, .msg "Invalid or expired reset token"⟩, store)
      | some user =>
        let hashedPassword := hashFn p
        let store1 := update store user.id { password := some hashedPassword }
        let store2 := clearResetToken store1 user.id
        (⟨200, .msg "Password has been reset successfully"⟩, store2)

/-- `UserController.loginUser` (the copy alongside the password-reset
handlers).  `compareFn` stands for `bcrypt.compare` (external); `nowSec` is
the issuance clock in seconds. -/
def loginUser (compareFn : String → String → Bool) (secret : String)
    (store : Store) (nowSec : Nat) (email password : Option String) : Resp :=
  if falsy email || falsy password then
    ⟨400, .msg "Email and password required"⟩
  else
    let e := email.getD ""
    let p := password.getD ""
    match findByEmail store e with
    | none => ⟨401, .msg "Invalid email or password"⟩
    | some user =>
      if !compareFn p user.password then
        ⟨401, .msg "Invalid email or password"⟩
      else
        ⟨200, .token (jwtSign secret user.id user.email nowSec)⟩

/-- The outcome of `this.dao.create` inside registerUser's try block: a saved
document with a fresh id, a duplicate-key error (`err.code === 11000`), a
mongoose `ValidationError`, or any other (infrastructure) error. -/
inductive CreateOutcome where
  | created (assignedId : Nat)
  | dupEmail
  | validationErr (m : String)
  | infraErr (m : String)
  deriving DecidableEq, Repr

/-- The request body of registerUser / the profile part handed to
`dao.create` via the rest spread. -/
structure RegisterBody where
  firstName : Option String := none
  lastName : Option String := none
  age : Option Nat := none
  email : Option String := none
  password : Option String := none
  confirmPassword : Option String := none
  deriving DecidableEq, Repr

/-- `UserController.registerUser` (userController.ts, the handler with the
Spanish messages cited by the spec).  The result response is an `Option`:
`none` models the handler completing without ever calling `res.status`, i.e.
no HTTP response is sent.  In the catch block, an unexpected error produces
the 500 response only inside `if (process.env.NODE_ENV === "development")`;
there is no else branch. -/
def registerUser (hashFn : String → String) (outcome : CreateOutcome)
    (nodeEnv : Option String) (store : Store) (body : RegisterBody) :
    Option Resp × Store :=
  if falsy body.email || falsy body.password || falsy body.confirmPassword then
    (some ⟨400, .msg "Todos los campos son requeridos"⟩, store)
  else
    let e := body.email.getD ""
    let p := body.password.getD ""
    let cp := body.confirmPassword.getD ""
    if !EMAIL_REGEX_test e then
      (some ⟨400, .msg "Formato de email inválido"⟩, store)
    else if !PASSWORD_REGEX_test p then
      (some ⟨400, .msg "La contraseña debe contener al menos 8 caracteres, 1 mayúscula, 1 minúscula y 1 caracter especial"⟩,
        store)
    else if p != cp then
      (some ⟨400, .msg "Las contraseñas no coinciden"⟩, store)
    else
      match outcome with
      | .created newId =>
        let newUser : StoredUser :=
          { id := newId
            firstName := body.firstName.getD ""
            lastName := body.lastName.getD ""
            age := body.age.getD 0
            email := e
            password := hashFn p }
        (some ⟨201, .userId newId⟩, store ++ [newUser])
      | .dupEmail => (some ⟨409, .msg "El email ya existe"⟩, store)
      | .validationErr m => (some ⟨400, .msg m⟩, store)
      | .infraErr _m =>
        if nodeEnv == some "development" then
          (some ⟨500, .msg "Internal server error"⟩, store)
        else
          (none, store)

/-- The request body of `updateUser`. -/
structure UpdateBody where
  firstName : Option String := none
  lastName : Option String := none
  age : Option Nat := none
  email : Option String := none
  password : Option String := none
  confirmPassword : Option String := none
  deriving DecidableEq, Repr

/-- What `dao.update(userId, req.body)` writes: every schema field present in
the body, verbatim.  `confirmPassword` is not a schema field and is dropped by
mongoose. -/
def bodyToUpdateFields (b : UpdateBody) : UpdateFields :=
  { firstName := b.firstName
    lastName := b.lastName
    age := b.age
    email := b.email
    password := b.password }

/-- `UserController.updateUser` (userController.ts, lines 166 to 208): after
the confirmation check, `req.body` — including a plaintext `password` — is
passed to `dao.update` unchanged; no hashing occurs on this path. -/
def updateUser (store : Store) (userId : Nat) (body : UpdateBody) :
    Resp × Store :=
  match findById store userId with
  | none => (⟨404, .msg "Usuario no encontrado"⟩, store)
  | some _user =>
    if !falsy body.password && body.password != body.confirmPassword then
      (⟨400, .msg "Las contraseñas no coinciden"⟩, store)
    else
      (⟨200, .msg "Perfil exitosamente actualizado"⟩,
        update store userId (bodyToUpdateFields body))

/-! ## Authentication middleware (auth.ts) -/

/-- Result of the middleware: either an error response was sent, or `next()`
ran with the decoded identity attached to the request. -/
inductive AuthResult where
  | resp (r : Resp)
  | authed (id : Nat) (email : String)
  deriving DecidableEq, Repr

/-- `authenticateToken` from auth.ts.  `secretEnv` is `process.env.JWT_SECRET`
(`none` for unset or empty, both falsy); `token` is the bearer token extracted
from the Authorization header (`none` when missing).  In this structured model
a decoded payload always carries the `id` and `email` claims, so the
malformed-payload branch is unreachable. -/
def authenticateToken (secretEnv : Option String) (token : Option Jwt)
    (now : Nat) : AuthResult :=
  match token with
  | none => .resp ⟨401, .msg "Token missing"⟩
  | some t =>
    match secretEnv with
    | none => .resp ⟨500, .msg "Server misconfiguration"⟩
    | some secret =>
      match jwtVerify secret t now with
      | none => .resp ⟨403, .msg "Invalid token"⟩
      | some (id, email) => .authed id email

/-! ## The password policy as the specification words it -/

/-- The strength predicate exactly as claim C9 words it: length at least 8,
at least one uppercase letter, one lowercase letter, one digit, and one
symbol (a character that is not a letter or digit). -/
def specPasswordStrong (s : String) : Bool :=
  let cs := s.data
  decide (8 ≤ cs.length) && cs.any asciiUpper && cs.any asciiLower &&
    cs.any jsDigit &&
    cs.any (fun c => !(asciiLower c || asciiUpper c || jsDigit c))

/-! ## Helper lemmas -/

/-- Partial updates never touch the document id. -/
lemma applyUpdate_id (d : UpdateFields) (u : StoredUser) :
    (applyUpdate d u).id = u.id := rfl

/-- A record whose stored token differs from `t` never matches the
reset-token query. -/
lemma resetTokenMatches_eq_false_of_ne {t : String} {now : Nat}
    {v : StoredUser} (h : v.resetPasswordToken ≠ some t) :
    resetTokenMatches t now v = false := by
  have hb : (v.resetPasswordToken == some t) = false := beq_eq_false_iff_ne.mpr h
  simp [resetTokenMatches, hb]

/-- If no record stores token `t`, the reset-token query is empty. -/
lemma findByResetToken_eq_none {store : Store} {t : String} {now : Nat}
    (h : ∀ v ∈ store, v.resetPasswordToken ≠ some t) :
    findByResetToken store t now = none := by
  apply List.find?_eq_none.mpr
  intro v hv
  simp [resetTokenMatches_eq_false_of_ne (h v hv)]

/-- A string passing the password policy is nonempty. -/
lemma password_test_ne_empty {p : String} (hp : PASSWORD_REGEX_test p = true) :
    (p == "") = false := by
  by_cases h : p = ""
  · subst h; exact absurd hp (by decide)
  · exact beq_eq_false_iff_ne.mpr h

/-- A string passing the email format check is nonempty. -/
lemma email_test_ne_empty {e : String} (he : EMAIL_REGEX_test e = true) :
    (e == "") = false := by
  by_cases h : e = ""
  · subst h; exact absurd he (by decide)
  · exact beq_eq_false_iff_ne.mpr h

/-- On input free of line terminators, a start-anchored `(?=.*X)` lookahead is
just containment of a class-`X` character. -/
lemma dotStarLookahead_eq_any (cls : Char → Bool) :
    ∀ cs : List Char, cs.all jsDot = true →
      dotStarLookahead cls cs = cs.any cls
  | [], _ => rfl
  | c :: cs, h => by
    simp only [List.all_cons, Bool.and_eq_true] at h
    simp [dotStarLookahead, h.1, dotStarLookahead_eq_any cls cs h.2]

/-- Cons step for `findByEmail`, matching head. -/
lemma findByEmail_cons_pos {w : StoredUser} {ws : Store} {e : String}
    (h : (w.email == e) = true) : findByEmail (w :: ws) e = some w := by
  simp [findByEmail, List.find?_cons_of_pos, h]

/-- Cons step for `findByEmail`, non-matching head. -/
lemma findByEmail_cons_neg {w : StoredUser} {ws : Store} {e : String}
    (h : (w.email == e) = false) :
    findByEmail (w :: ws) e = findByEmail ws e := by
  simp [findByEmail, List.find?_cons_of_neg, h]

/-- Cons step for `findByResetToken`, matching head. -/
lemma findByResetToken_cons_pos {w : StoredUser} {ws : Store} {t : String}
    {now : Nat} (h : resetTokenMatches t now w = true) :
    findByResetToken (w :: ws) t now = some w := by
  simp [findByResetToken, List.find?_cons_of_pos, h]

/-- Cons step for `findByResetToken`, non-matching head. -/
lemma findByResetToken_cons_neg {w : StoredUser} {ws : Store} {t : String}
    {now : Nat} (h : resetTokenMatches t now w = false) :
    findByResetToken (w :: ws) t now = findByResetToken ws t now := by
  simp [findByResetToken, List.find?_cons_of_neg, h]

/-- Cons step for `setResetToken`, matching head. -/
lemma setResetToken_cons_pos {w : StoredUser} {ws : Store} {e t : String}
    {exp : Nat} (h : (w.email == e) = true) :
    setResetToken (w :: ws) e t exp =
      { w with resetPasswordToken := some t,
               resetPasswordExpires := some exp } :: ws := by
  simp [setResetToken, updateFirstBy, h]

/-- Cons step for `setResetToken`, non-matching head. -/
lemma setResetToken_cons_neg {w : StoredUser} {ws : Store} {e t : String}
    {exp : Nat} (h : (w.email == e) = false) :
    setResetToken (w :: ws) e t exp = w :: setResetToken ws e t exp := by
  simp [setResetToken, updateFirstBy, h]

/-- Cons step for `update`, matching head. -/
lemma update_cons_pos {w : StoredUser} {ws : Store} {i : Nat}
    {d : UpdateFields} (h : (w.id == i) = true) :
    update (w :: ws) i d = applyUpdate d w :: ws := by
  simp [update, updateFirstBy, h]

/-- Cons step for `update`, non-matching head. -/
lemma update_cons_neg {w : StoredUser} {ws : Store} {i : Nat}
    {d : UpdateFields} (h : (w.id == i) = false) :
    update (w :: ws) i d = w :: update ws i d := by
  simp [update, updateFirstBy, h]

/-- Cons step for `clearResetToken`, matching head. -/
lemma clearResetToken_cons_pos {w : StoredUser} {ws : Store} {i : Nat}
    (h : (w.id == i) = true) :
    clearResetToken (w :: ws) i =
      { w with resetPasswordToken := none,
               resetPasswordExpires := none } :: ws := by
  simp [clearResetToken, updateFirstBy, h]

/-- Cons step for `clearResetToken`, non-matching head. -/
lemma clearResetToken_cons_neg {w : StoredUser} {ws : Store} {i : Nat}
    (h : (w.id == i) = false) :
    clearResetToken (w :: ws) i = w :: clearResetToken ws i := by
  simp [clearResetToken, updateFirstBy, h]

/-- `setResetToken` overwrites the token fields of exactly the record that
`findByEmail` returns. -/
lemma findByEmail_setResetToken {store : Store} {e t : String} {exp : Nat}
    {u : StoredUser} (hfind : findByEmail store e = some u) :
    findByEmail (setResetToken store e t exp) e =
      some { u with resetPasswordToken := some t,
                    resetPasswordExpires := some exp } := by
  induction store with
  | nil => simp [findByEmail] at hfind
  | cons w ws ih =>
    by_cases hw : w.email = e
    · have hb : (w.email == e) = true := beq_iff_eq.mpr hw
      have hu : w = u := by
        rw [findByEmail_cons_pos hb] at hfind
        exact Option.some.inj hfind
      subst hu
      rw [setResetToken_cons_pos hb]
      exact findByEmail_cons_pos hb
    · have hb : (w.email == e) = false := beq_eq_false_iff_ne.mpr hw
      rw [findByEmail_cons_neg hb] at hfind
      rw [setResetToken_cons_neg hb, findByEmail_cons_neg hb]
      exact ih hfind

/-- After `setResetToken` writes a fresh token `t2` for the only record
holding `t1`, no unexpired record stores `t1` any more. -/
lemma findByResetToken_setResetToken_old {store : Store} {e t1 t2 : String}
    {exp2 now : Nat}
    (hemails : (store.map StoredUser.email).Nodup)
    (huniq : ∀ v ∈ store, v.resetPasswordToken = some t1 → v.email = e)
    (hne : t1 ≠ t2) :
    findByResetToken (setResetToken store e t2 exp2) t1 now = none := by
  induction store with
  | nil => rfl
  | cons w ws ih =>
    obtain ⟨hnotin, hnod⟩ :
        w.email ∉ ws.map StoredUser.email ∧ (ws.map StoredUser.email).Nodup := by
      simpa [List.nodup_cons] using hemails
    by_cases hw : w.email = e
    · have hb : (w.email == e) = true := beq_iff_eq.mpr hw
      have htail : ∀ v ∈ ws, v.resetPasswordToken ≠ some t1 := by
        intro v hv hvt
        have hve : v.email = e := huniq v (List.mem_cons_of_mem _ hv) hvt
        exact hnotin (List.mem_map.mpr ⟨v, hv, by rw [hve, hw]⟩)
      have hhead : resetTokenMatches t1 now
          { w with resetPasswordToken := some t2,
                   resetPasswordExpires := some exp2 } = false := by
        apply resetTokenMatches_eq_false_of_ne
        intro h
        exact hne (Option.some.inj h).symm
      rw [setResetToken_cons_pos hb, findByResetToken_cons_neg hhead]
      exact findByResetToken_eq_none htail
    · have hb : (w.email == e) = false := beq_eq_false_iff_ne.mpr hw
      have hhead : resetTokenMatches t1 now w = false := by
        apply resetTokenMatches_eq_false_of_ne
        intro hwt
        exact hw (huniq w (List.mem_cons_self _ _) hwt)
      rw [setResetToken_cons_neg hb, findByResetToken_cons_neg hhead]
      exact ih hnod (fun v hv => huniq v (List.mem_cons_of_mem _ hv))

/-- After `setResetToken` writes token `tok` with expiry `exp` for the record
`findByEmail` returns (and `tok` is stored nowhere else), the reset-token
query for `tok` succeeds exactly while the clock is strictly below `exp`. -/
lemma findByResetToken_setResetToken_self {store : Store} {e tok : String}
    {exp now : Nat} {u : StoredUser}
    (hemails : (store.map StoredUser.email).Nodup)
    (hfind : findByEmail store e = some u)
    (hfresh : ∀ v ∈ store, v.resetPasswordToken = some tok → v.email = e) :
    findByResetToken (setResetToken store e tok exp) tok now =
      if now < exp then
        some { u with resetPasswordToken := some tok,
                      resetPasswordExpires := some exp }
      else none := by
  induction store with
  | nil => simp [findByEmail] at hfind
  | cons w ws ih =>
    obtain ⟨hnotin, hnod⟩ :
        w.email ∉ ws.map StoredUser.email ∧ (ws.map StoredUser.email).Nodup := by
      simpa [List.nodup_cons] using hemails
    by_cases hw : w.email = e
    · have hb : (w.email == e) = true := beq_iff_eq.mpr hw
      have hu : w = u := by
        rw [findByEmail_cons_pos hb] at hfind
        exact Option.some.inj hfind
      subst hu
      by_cases hlt : now < exp
      · have hhead : resetTokenMatches tok now
            { w with resetPasswordToken := some tok,
                     resetPasswordExpires := some exp } = true := by
          simp [resetTokenMatches, hlt]
        rw [setResetToken_cons_pos hb, findByResetToken_cons_pos hhead,
          if_pos hlt]
      · have hhead : resetTokenMatches tok now
            { w with resetPasswordToken := some tok,
                     resetPasswordExpires := some exp } = false := by
          simp [resetTokenMatches, hlt]
        have htail : ∀ v ∈ ws, v.resetPasswordToken ≠ some tok := by
          intro v hv hvt
          have hve : v.email = e := hfresh v (List.mem_cons_of_mem _ hv) hvt
          exact hnotin (List.mem_map.mpr ⟨v, hv, by rw [hve, hw]⟩)
        rw [setResetToken_cons_pos hb, findByResetToken_cons_neg hhead,
          if_neg hlt]
        exact findByResetToken_eq_none htail
    · have hb : (w.email == e) = false := beq_eq_false_iff_ne.mpr hw
      rw [findByEmail_cons_neg hb] at hfind
      have hhead : resetTokenMatches tok now w = false := by
        apply resetTokenMatches_eq_false_of_ne
        intro hwt
        exact hw (hfresh w (List.mem_cons_self _ _) hwt)
      rw [setResetToken_cons_neg hb, findByResetToken_cons_neg hhead]
      exact ih hnod hfind (fun v hv => hfresh v (List.mem_cons_of_mem _ hv))

/-- Consuming a token — updating the matched record's password and then
clearing its reset fields — removes every unexpired occurrence of `t` when
ids are unique and `t` was stored only by `u`. -/
lemma findByResetToken_after_consume (d : UpdateFields) {store : Store}
    {u : StoredUser} {t : String} (now2 : Nat)
    (hids : (store.map StoredUser.id).Nodup)
    (huniq : ∀ v ∈ store, v.resetPasswordToken = some t → v = u) :
    findByResetToken (clearResetToken (update store u.id d) u.id) t now2 =
      none := by
  induction store with
  | nil => rfl
  | cons w ws ih =>
    obtain ⟨hnotin, hnod⟩ :
        w.id ∉ ws.map StoredUser.id ∧ (ws.map StoredUser.id).Nodup := by
      simpa [List.nodup_cons] using hids
    by_cases hw : w.id = u.id
    · have hb : (w.id == u.id) = true := beq_iff_eq.mpr hw
      have hb2 : ((applyUpdate d w).id == u.id) = true := by
        rw [applyUpdate_id]; exact hb
      have htail : ∀ v ∈ ws, v.resetPasswordToken ≠ some t := by
        intro v hv hvt
        have hveq : v = u := huniq v (List.mem_cons_of_mem _ hv) hvt
        have hvid : v.id = w.id := by rw [hveq, hw]
        exact hnotin (List.mem_map.mpr ⟨v, hv, hvid⟩)
      have hhead : resetTokenMatches t now2
          { applyUpdate d w with resetPasswordToken := none,
                                 resetPasswordExpires := none } = false := by
        apply resetTokenMatches_eq_false_of_ne
        simp
      rw [update_cons_pos hb, clearResetToken_cons_pos hb2,
        findByResetToken_cons_neg hhead]
      exact findByResetToken_eq_none htail
    · have hb : (w.id == u.id) = false := beq_eq_false_iff_ne.mpr hw
      have hhead : resetTokenMatches t now2 w = false := by
        apply resetTokenMatches_eq_false_of_ne
        intro hwt
        exact hw (congrArg StoredUser.id (huniq w (List.mem_cons_self _ _) hwt))
      rw [update_cons_neg hb, clearResetToken_cons_neg hb,
        findByResetToken_cons_neg hhead]
      exact ih hnod (fun v hv => huniq v (List.mem_cons_of_mem _ hv))

/-- A lowercase hexadecimal digit. -/
def isLowerHexDigit (c : Char) : Bool :=
  jsDigit c || ('a' ≤ c && c ≤ 'f')

/-- Hex rendering yields two characters per byte. -/
lemma bytesToHex_length (bs : List Nat) :
    (bytesToHex bs).length = 2 * bs.length := by
  induction bs with
  | nil => rfl
  | cons b bs ih =>
    simp only [bytesToHex, String.length, List.flatMap_cons, byteToHex,
      List.length_append, List.length_cons, List.length_nil] at *
    omega

/-- Every nibble renders as a lowercase hexadecimal digit. -/
lemma isLowerHexDigit_hexDigitChar (n : Nat) (h : n < 16) :
    isLowerHexDigit (hexDigitChar n) = true := by
  have hfin : ∀ i : Fin 16, isLowerHexDigit (hexDigitChar i.val) = true := by
    decide
  exact hfin ⟨n, h⟩

/-- Every character of a hex-rendered byte string is a lowercase hexadecimal
digit. -/
lemma bytesToHex_chars (bs : List Nat) :
    ∀ c ∈ (bytesToHex bs).data, isLowerHexDigit c = true := by
  intro c hc
  have hc2 : c ∈ bs.flatMap byteToHex := hc
  obtain ⟨b, hb, hcb⟩ := List.mem_flatMap.mp hc2
  simp only [byteToHex, List.mem_cons, List.mem_singleton] at hcb
  rcases hcb with h1 | h2 | h3
  · subst h1; exact isLowerHexDigit_hexDigitChar _ (Nat.mod_lt _ (by norm_num))
  · subst h2; exact isLowerHexDigit_hexDigitChar _ (Nat.mod_lt _ (by norm_num))
  · exact absurd h3 (by simp)

/-- The request phase, when the email is well-formed and a user exists:
the token is persisted with a one-hour expiry, and the response depends only
on whether the Notifier delivery succeeded. -/
lemma requestPasswordReset_found (ok : Bool) {store : Store} {now : Nat}
    {rnd : List Nat} {e : String} {u : StoredUser}
    (hvalid : EMAIL_REGEX_test e = true)
    (hfind : findByEmail store e = some u) :
    requestPasswordReset store now rnd ok (some e) =
      ((if ok then
          (⟨200, .msg "If the email exists, a password reset link has been sent"⟩ : Resp)
        else ⟨500, .msg "Internal server error"⟩),
       setResetToken store e (bytesToHex rnd) (now + 60 * 60 * 1000)) := by
  have hne := email_test_ne_empty hvalid
  cases ok <;> simp [requestPasswordReset, falsy, hne, hvalid, hfind]

/-- The redemption phase on a matching unexpired token: the generic success
response, with the password updated and the reset fields cleared. -/
lemma resetPassword_success (hashFn : String → String) {store : Store}
    {now : Nat} {t p cp : String} {u : StoredUser}
    (ht : (t == "") = false) (hp : PASSWORD_REGEX_test p = true)
    (hcp : p = cp) (hfind : findByResetToken store t now = some u) :
    resetPassword hashFn store now (some t) (some p) (some cp) =
      (⟨200, .msg "Password has been reset successfully"⟩,
       clearResetToken (update store u.id { password := some (hashFn p) })
         u.id) := by
  have hpne := password_test_ne_empty hp
  have hcpne : (cp == "") = false := hcp ▸ hpne
  have hpeq : (p != cp) = false := by simp [hcp]
  simp [resetPassword, falsy, ht, hpne, hcpne, hp, hpeq, hfind]

/-! ## Concrete fixtures used by witnesses -/

/-- A stored user with no pending reset token. -/
def wUser : StoredUser :=
  { id := 1, firstName := "Bob", lastName := "Stone", age := 30,
    email := "bob@example.com", password := "$2b$10$priorHash" }

/-- A stored user with an unexpired reset token `cafe` (expiry 1000 ms). -/
def wActive : StoredUser :=
  { id := 2, firstName := "Ann", lastName := "Lee", age := 25,
    email := "ann@example.com", password := "$2b$10$h2",
    resetPasswordToken := some "cafe", resetPasswordExpires := some 1000 }

/-- A stored user whose reset token `beef` expired at 400 ms. -/
def wExpired : StoredUser :=
  { id := 3, firstName := "Cid", lastName := "Ray", age := 40,
    email := "cid@example.com", password := "$2b$10$h3",
    resetPasswordToken := some "beef", resetPasswordExpires := some 400 }

/-- A concrete stand-in for `bcrypt.hash`. -/
def wHash : String → String := fun s => String.append "bcrypt$" s

/-- A concrete stand-in for `bcrypt.compare` that never verifies. -/
def wCompareFalse : String → String → Bool := fun _ _ => false

/-! ## The claims -/

/-- C1: for every syntactically valid email, when the Notifier delivery
succeeds (or is never attempted because no user matches), the request phase
answers HTTP 200 with the one fixed success message — the response is a
constant, hence byte-identical whether or not a user with that email exists
in the store. -/
theorem requestPasswordReset_anti_enumeration
    (store : Store) (now : Nat) (rnd : List Nat) (notifierOk : Bool)
    (e : String) (hvalid : EMAIL_REGEX_test e = true)
    (hok : findByEmail store e = none ∨ notifierOk = true) :
    (requestPasswordReset store now rnd notifierOk (some e)).fst =
      ⟨200, .msg "If the email exists, a password reset link has been sent"⟩ := by
  have hne := email_test_ne_empty hvalid
  rcases hok with hnone | hoknote
  · simp [requestPasswordReset, falsy, hne, hvalid, hnone]
  · subst hoknote
    cases hfind : findByEmail store e with
    | none => simp [requestPasswordReset, falsy, hne, hvalid, hfind]
    | some u => rw [requestPasswordReset_found true hvalid hfind]; rfl

/-- Witness for C1: the concrete response is the same 200 message for an
absent user and for a present one. -/
theorem requestPasswordReset_anti_enumeration_witness :
    (requestPasswordReset [] 0 [] true (some "bob@example.com")).fst =
      ⟨200, .msg "If the email exists, a password reset link has been sent"⟩ ∧
    (requestPasswordReset [wUser] 0 (List.replicate 32 0) true
        (some "bob@example.com")).fst =
      ⟨200, .msg "If the email exists, a password reset link has been sent"⟩ :=
  ⟨requestPasswordReset_anti_enumeration [] 0 [] true "bob@example.com"
      (by decide) (Or.inl rfl),
   requestPasswordReset_anti_enumeration [wUser] 0 (List.replicate 32 0) true
      "bob@example.com" (by decide) (Or.inr rfl)⟩

/-- C5: `findByResetToken` returns a user only if that user's stored token
equals the searched token and the stored expiry is strictly later than the
current time; and whenever every record holding the token has expired (at or
before now) — in particular when none holds it at all — the result is the
same `none` as for a token never stored. -/
theorem findByResetToken_spec :
    (∀ (store : Store) (t : String) (now : Nat) (u : StoredUser),
        findByResetToken store t now = some u →
          u.resetPasswordToken = some t ∧
          ∃ e, u.resetPasswordExpires = some e ∧ now < e) ∧
    (∀ (store : Store) (t : String) (now : Nat),
        (∀ v ∈ store, ∀ e, v.resetPasswordToken = some t →
            v.resetPasswordExpires = some e → e ≤ now) →
        findByResetToken store t now = none) := by
  constructor
  · intro store t now u hfind
    have hpred : resetTokenMatches t now u = true := List.find?_some hfind
    simp only [resetTokenMatches, Bool.and_eq_true] at hpred
    obtain ⟨h1, h2⟩ := hpred
    have h1e : u.resetPasswordToken = some t := beq_iff_eq.mp h1
    cases he : u.resetPasswordExpires with
    | none => rw [he] at h2; exact absurd h2 (by simp)
    | some e2 =>
      rw [he] at h2
      exact ⟨h1e, e2, rfl, by simpa using h2⟩
  · intro store t now h
    apply List.find?_eq_none.mpr
    intro v hv hmatch
    simp only [resetTokenMatches, Bool.and_eq_true] at hmatch
    obtain ⟨h1, h2⟩ := hmatch
    have h1e : v.resetPasswordToken = some t := beq_iff_eq.mp h1
    cases he : v.resetPasswordExpires with
    | none => rw [he] at h2; exact absurd h2 (by simp)
    | some e2 =>
      rw [he] at h2
      have hlt : now < e2 := by simpa using h2
      exact absurd hlt (not_lt.mpr (h v hv e2 h1e he))

/-- Witness for C5: a live token is returned with its expiry strictly in the
future; once the expiry has passed, the lookup is empty. -/
theorem findByResetToken_spec_witness :
    (wActive.resetPasswordToken = some "cafe" ∧
      ∃ e, wActive.resetPasswordExpires = some e ∧ 500 < e) ∧
    findByResetToken [wExpired] "beef" 400 = none :=
  ⟨findByResetToken_spec.1 [wActive] "cafe" 500 wActive (by decide),
   findByResetToken_spec.2 [wExpired] "beef" 400 (by
      intro v hv e h1 h2
      rw [List.mem_singleton] at hv
      subst hv
      simp [wExpired] at h2
      omega)⟩

/-- C6: a second successful reset request for the same email overwrites the
stored reset-token fields with the new token and expiry, and the previously
issued token no longer matches any stored record at any time.  The record
carries a single pair of reset fields, so the overwritten user holds at most
one active token. -/
theorem setResetToken_invalidates_previous
    (store : Store) (e t1 t2 : String) (exp2 : Nat) (u : StoredUser)
    (hemails : (store.map StoredUser.email).Nodup)
    (hfind : findByEmail store e = some u)
    (huniq : ∀ v ∈ store, v.resetPasswordToken = some t1 → v.email = e)
    (hne : t1 ≠ t2) :
    findByEmail (setResetToken store e t2 exp2) e =
      some { u with resetPasswordToken := some t2,
                    resetPasswordExpires := some exp2 } ∧
    ∀ now, findByResetToken (setResetToken store e t2 exp2) t1 now = none :=
  ⟨findByEmail_setResetToken hfind,
   fun _now => findByResetToken_setResetToken_old hemails huniq hne⟩

/-- Witness for C6: overwriting the token `cafe` with `beef` leaves the user
holding only `beef`, and `cafe` can no longer be redeemed even while it was
still unexpired. -/
theorem setResetToken_invalidates_previous_witness :
    findByEmail (setResetToken [wActive] "ann@example.com" "beef" 5000)
        "ann@example.com" =
      some { wActive with resetPasswordToken := some "beef",
                          resetPasswordExpires := some 5000 } ∧
    findByResetToken (setResetToken [wActive] "ann@example.com" "beef" 5000)
        "cafe" 500 = none :=
  ⟨(setResetToken_invalidates_previous [wActive] "ann@example.com" "cafe"
      "beef" 5000 wActive (by decide) (by decide) (by decide) (by decide)).1,
   (setResetToken_invalidates_previous [wActive] "ann@example.com" "cafe"
      "beef" 5000 wActive (by decide) (by decide) (by decide) (by decide)).2
      500⟩

/-- C2: a reset token is accepted at most once.  Under unique Mongo ids, when
the token `t` matches (unexpired) exactly the record `u`, the first redemption
returns the generic success — and because the success path clears both stored
reset-token fields, a second redemption of the same `t`, with otherwise valid
inputs, at any later (or any) clock, fails with the invalid-or-expired-token
response. -/
theorem resetPassword_single_use
    (hashFn hashFn2 : String → String) (store : Store) (now now2 : Nat)
    (t p cp p2 cp2 : String) (u : StoredUser)
    (hids : (store.map StoredUser.id).Nodup)
    (ht : t ≠ "")
    (hp : PASSWORD_REGEX_test p = true) (hcp : p = cp)
    (hp2 : PASSWORD_REGEX_test p2 = true) (hcp2 : p2 = cp2)
    (hfind : findByResetToken store t now = some u)
    (huniq : ∀ v ∈ store, v.resetPasswordToken = some t → v = u) :
    (resetPassword hashFn store now (some t) (some p) (some cp)).fst =
      ⟨200, .msg "Password has been reset successfully"⟩ ∧
    (resetPassword hashFn2
        (resetPassword hashFn store now (some t) (some p) (some cp)).snd
        now2 (some t) (some p2) (some cp2)).fst =
      ⟨400, .msg "Invalid or expired reset token"⟩ := by
  have htb : (t == "") = false := beq_eq_false_iff_ne.mpr ht
  have h1 := resetPassword_success hashFn htb hp hcp hfind
  refine ⟨by rw [h1], ?_⟩
  rw [h1]
  have hclear :=
    findByResetToken_after_consume { password := some (hashFn p) } now2 hids
      huniq
  have hp2ne := password_test_ne_empty hp2
  have hcp2ne : (cp2 == "") = false := hcp2 ▸ hp2ne
  have hpeq2 : (p2 != cp2) = false := by simp [hcp2]
  simp [resetPassword, falsy, htb, hp2ne, hcp2ne, hp2, hpeq2, hclear]

/-- A concrete store for the C2 witness: one user holding the unexpired token
`deadbeef`. -/
def wTokenUser : StoredUser :=
  { id := 5, firstName := "Eve", lastName := "Hart", age := 22,
    email := "eve@example.com", password := "$2b$10$h5",
    resetPasswordToken := some "deadbeef", resetPasswordExpires := some 1000 }

/-- Witness for C2: redeeming `deadbeef` once succeeds; redeeming it again
immediately afterwards fails with the invalid-or-expired-token response. -/
theorem resetPassword_single_use_witness :
    (resetPassword wHash [wTokenUser] 500 (some "deadbeef")
        (some "Valid1Pass!") (some "Valid1Pass!")).fst =
      ⟨200, .msg "Password has been reset successfully"⟩ ∧
    (resetPassword wHash
        (resetPassword wHash [wTokenUser] 500 (some "deadbeef")
          (some "Valid1Pass!") (some "Valid1Pass!")).snd
        600 (some "deadbeef") (some "Valid1Pass!") (some "Valid1Pass!")).fst =
      ⟨400, .msg "Invalid or expired reset token"⟩ :=
  resetPassword_single_use wHash wHash [wTokenUser] 500 600 "deadbeef"
    "Valid1Pass!" "Valid1Pass!" "Valid1Pass!" "Valid1Pass!" wTokenUser
    (by decide) (by decide) (by decide) rfl (by decide) rfl (by decide)
    (by decide)

/-- C7: for a reset request at time `now` for an existing user, the stored
token is the 64-character lowercase-hexadecimal rendering of the 32 random
bytes, the stored expiry is exactly `now + 3600000` milliseconds (one hour),
and redemption lookups for that token succeed at clock `t` exactly when
`t < now + 3600000` — strictly before the hour is up — and are empty at or
after it. -/
theorem resetToken_format_and_expiry
    (store : Store) (now : Nat) (rnd : List Nat) (e : String) (u : StoredUser)
    (hlen : rnd.length = 32)
    (hvalid : EMAIL_REGEX_test e = true)
    (hemails : (store.map StoredUser.email).Nodup)
    (hfind : findByEmail store e = some u)
    (hfresh : ∀ v ∈ store,
      v.resetPasswordToken = some (bytesToHex rnd) → v.email = e) :
    (bytesToHex rnd).length = 64 ∧
    (∀ c ∈ (bytesToHex rnd).data, isLowerHexDigit c = true) ∧
    (requestPasswordReset store now rnd true (some e)).snd =
      setResetToken store e (bytesToHex rnd) (now + 3600000) ∧
    (∀ t, findByResetToken
        (requestPasswordReset store now rnd true (some e)).snd
        (bytesToHex rnd) t =
      if t < now + 3600000 then
        some { u with resetPasswordToken := some (bytesToHex rnd),
                      resetPasswordExpires := some (now + 3600000) }
      else none) := by
  have hsnd : (requestPasswordReset store now rnd true (some e)).snd =
      setResetToken store e (bytesToHex rnd) (now + 3600000) := by
    rw [requestPasswordReset_found true hvalid hfind]
  refine ⟨?_, bytesToHex_chars rnd, hsnd, ?_⟩
  · rw [bytesToHex_length, hlen]
  · intro t
    rw [hsnd]
    exact findByResetToken_setResetToken_self hemails hfind hfresh

/-- Witness for C7: with 32 concrete bytes, the stored token has 64 lowercase
hex characters, and redemption succeeds at 3599999 ms after a request at time
0 but not at 3600000 ms. -/
theorem resetToken_format_and_expiry_witness :
    (bytesToHex (List.replicate 32 171)).length = 64 ∧
    findByResetToken
        (requestPasswordReset [wUser] 0 (List.replicate 32 171) true
          (some "bob@example.com")).snd
        (bytesToHex (List.replicate 32 171)) 3599999 =
      some { wUser with
              resetPasswordToken := some (bytesToHex (List.replicate 32 171)),
              resetPasswordExpires := some 3600000 } ∧
    findByResetToken
        (requestPasswordReset [wUser] 0 (List.replicate 32 171) true
          (some "bob@example.com")).snd
        (bytesToHex (List.replicate 32 171)) 3600000 = none := by
  have h := resetToken_format_and_expiry [wUser] 0 (List.replicate 32 171)
    "bob@example.com" wUser (by decide) (by decide) (by decide) (by decide)
    (by decide)
  refine ⟨h.1, ?_, ?_⟩
  · have h2 := h.2.2.2 3599999
    simpa using h2
  · have h2 := h.2.2.2 3600000
    simpa using h2

/-- C8: a session token signed at `T` embeds the user id and email, verifies
to exactly that identity at every clock strictly below `T + 7200` seconds
(which covers all of the claimed window from `T` up to but excluding two
hours after issuance), and is rejected by the middleware with the 403
invalid-token response at or after `T + 7200`.  Verification reads only the
token and the clock — no server-side state exists through which a token could
be revoked or refreshed before expiry. -/
theorem sessionToken_two_hour_window
    (secret : String) (id : Nat) (email : String) (T : Nat) :
    (jwtSign secret id email T).id = id ∧
    (jwtSign secret id email T).email = email ∧
    (∀ now, now < T + 7200 →
      authenticateToken (some secret) (some (jwtSign secret id email T)) now =
        .authed id email) ∧
    (∀ now, T + 7200 ≤ now →
      authenticateToken (some secret) (some (jwtSign secret id email T)) now =
        .resp ⟨403, .msg "Invalid token"⟩) := by
  refine ⟨rfl, rfl, ?_, ?_⟩
  · intro now hnow
    simp [authenticateToken, jwtVerify, jwtSign, hnow]
  · intro now hnow
    have hge : ¬ now < T + 7200 := not_lt.mpr hnow
    simp [authenticateToken, jwtVerify, jwtSign, hge]

/-- Witness for C8: a token issued at 0 authenticates at 7199 seconds and is
rejected at 7200 seconds. -/
theorem sessionToken_two_hour_window_witness :
    authenticateToken (some "s3cret")
        (some (jwtSign "s3cret" 1 "bob@example.com" 0)) 7199 =
      .authed 1 "bob@example.com" ∧
    authenticateToken (some "s3cret")
        (some (jwtSign "s3cret" 1 "bob@example.com" 0)) 7200 =
      .resp ⟨403, .msg "Invalid token"⟩ :=
  ⟨(sessionToken_two_hour_window "s3cret" 1 "bob@example.com" 0).2.2.1 7199
      (by decide),
   (sessionToken_two_hour_window "s3cret" 1 "bob@example.com" 0).2.2.2 7200
      (by decide)⟩

/-- C10: with both login fields present, the response for an unknown email
and the response for a known email with a non-verifying password are the same
401 status with the same message body, so a caller cannot tell the two cases
apart. -/
theorem loginUser_indistinguishable
    (compareFn : String → String → Bool) (secret : String)
    (s1 s2 : Store) (nowSec : Nat) (e p : String) (u : StoredUser)
    (he : e ≠ "") (hp : p ≠ "")
    (h1 : findByEmail s1 e = none)
    (h2 : findByEmail s2 e = some u)
    (h3 : compareFn p u.password = false) :
    loginUser compareFn secret s1 nowSec (some e) (some p) =
      ⟨401, .msg "Invalid email or password"⟩ ∧
    loginUser compareFn secret s2 nowSec (some e) (some p) =
      ⟨401, .msg "Invalid email or password"⟩ := by
  have heb : (e == "") = false := beq_eq_false_iff_ne.mpr he
  have hpb : (p == "") = false := beq_eq_false_iff_ne.mpr hp
  constructor
  · simp [loginUser, falsy, heb, hpb, h1]
  · simp [loginUser, falsy, heb, hpb, h2, h3]

/-- Witness for C10: against an empty store and against a store holding the
user (with a comparison that rejects the password), login yields the same
concrete 401 response. -/
theorem loginUser_indistinguishable_witness :
    loginUser wCompareFalse "s3cret" [] 0 (some "bob@example.com")
        (some "guess") = ⟨401, .msg "Invalid email or password"⟩ ∧
    loginUser wCompareFalse "s3cret" [wUser] 0 (some "bob@example.com")
        (some "guess") = ⟨401, .msg "Invalid email or password"⟩ :=
  loginUser_indistinguishable wCompareFalse "s3cret" [] [wUser] 0
    "bob@example.com" "guess" wUser (by decide) (by decide) rfl (by decide)
    rfl

/-- C3 (code-bug evidence): `updateUser` passes the request body to
`dao.update` without hashing, so a password update stores the submitted
plaintext verbatim as the `password` field — the handler responds 200 and the
persisted record's password equals the plaintext `NewPass1!`, violating the
stored-secret-is-a-hash invariant. -/
theorem updateUser_stores_submitted_plaintext :
    (updateUser [wUser] 1
        { password := some "NewPass1!",
          confirmPassword := some "NewPass1!" }).fst =
      ⟨200, .msg "Perfil exitosamente actualizado"⟩ ∧
    findById (updateUser [wUser] 1
        { password := some "NewPass1!",
          confirmPassword := some "NewPass1!" }).snd 1 =
      some { wUser with password := "NewPass1!" } := by
  decide

/-- C4 (code-bug evidence): when `dao.create` throws an unexpected
infrastructure error, `registerUser` sends the generic 500 response only when
`NODE_ENV` is `development`; with `NODE_ENV` set to `production` the handler
sends no HTTP response at all, instead of the generic Internal response the
specification requires in every environment. -/
theorem registerUser_silent_outside_development :
    (registerUser wHash (.infraErr "connection lost") (some "production") []
        { firstName := some "Bob", lastName := some "Stone", age := some 30,
          email := some "bob@example.com", password := some "Valid1Pass!",
          confirmPassword := some "Valid1Pass!" }).fst = none ∧
    (registerUser wHash (.infraErr "connection lost") (some "development") []
        { firstName := some "Bob", lastName := some "Stone", age := some 30,
          email := some "bob@example.com", password := some "Valid1Pass!",
          confirmPassword := some "Valid1Pass!" }).fst =
      some ⟨500, .msg "Internal server error"⟩ := by
  decide

/-- C9 counterexample: the claim's characterization — length at least 8 with
an uppercase letter, a lowercase letter, a digit and a symbol — accepts the
8-character string `Aa1!aaa` followed by a newline, but `PASSWORD_REGEX`
rejects it, because the `.` in `.{8,}` never matches a line terminator.  So
the regex does not accept exactly the strings the claim describes. -/
theorem password_policy_exactness_counterexample :
    specPasswordStrong "Aa1!aaa\n" = true ∧
    PASSWORD_REGEX_test "Aa1!aaa\n" = false := by
  decide

/-- C9 amended: the password predicate accepts exactly the strings of length
at least 8 that contain no line terminator and contain at least one lowercase
letter, one uppercase letter, one digit, and one character outside
`[A-Za-z0-9]` or an underscore; in particular it rejects the five listed weak
passwords and accepts `Valid1Pass!`. -/
theorem password_policy_characterization :
    (∀ s : String, PASSWORD_REGEX_test s = true ↔
        (8 ≤ s.data.length ∧
         (∀ c ∈ s.data, jsLineTerminator c = false) ∧
         (∃ c ∈ s.data, asciiLower c = true) ∧
         (∃ c ∈ s.data, asciiUpper c = true) ∧
         (∃ c ∈ s.data, jsDigit c = true) ∧
         (∃ c ∈ s.data, nonWordOrUnderscore c = true))) ∧
    PASSWORD_REGEX_test "abc" = false ∧
    PASSWORD_REGEX_test "alllowercase1!" = false ∧
    PASSWORD_REGEX_test "ALLUPPER1!" = false ∧
    PASSWORD_REGEX_test "NoDigits!!" = false ∧
    PASSWORD_REGEX_test "NoSymbol123" = false ∧
    PASSWORD_REGEX_test "Valid1Pass!" = true := by
  refine ⟨?_, by decide, by decide, by decide, by decide, by decide, by decide⟩
  intro s
  constructor
  · intro h
    simp only [PASSWORD_REGEX_test, Bool.and_eq_true] at h
    obtain ⟨⟨⟨⟨⟨hl, hu⟩, hd⟩, hw⟩, hlen⟩, hdot⟩ := h
    have hLT : ∀ c ∈ s.data, jsLineTerminator c = false := by
      intro c hc
      have := List.all_eq_true.mp hdot c hc
      simpa [jsDot] using this
    refine ⟨of_decide_eq_true hlen, hLT, ?_, ?_, ?_, ?_⟩
    · rw [dotStarLookahead_eq_any _ _ hdot] at hl
      simpa [List.any_eq_true] using hl
    · rw [dotStarLookahead_eq_any _ _ hdot] at hu
      simpa [List.any_eq_true] using hu
    · rw [dotStarLookahead_eq_any _ _ hdot] at hd
      simpa [List.any_eq_true] using hd
    · rw [dotStarLookahead_eq_any _ _ hdot] at hw
      simpa [List.any_eq_true] using hw
  · rintro ⟨hlen, hLT, hlo, hup, hdi, hsy⟩
    have hdot : s.data.all jsDot = true := by
      apply List.all_eq_true.mpr
      intro c hc
      simp [jsDot, hLT c hc]
    simp only [PASSWORD_REGEX_test, Bool.and_eq_true]
    refine ⟨⟨⟨⟨⟨?_, ?_⟩, ?_⟩, ?_⟩, decide_eq_true hlen⟩, hdot⟩
    · rw [dotStarLookahead_eq_any _ _ hdot]
      simpa [List.any_eq_true] using hlo
    · rw [dotStarLookahead_eq_any _ _ hdot]
      simpa [List.any_eq_true] using hup
    · rw [dotStarLookahead_eq_any _ _ hdot]
      simpa [List.any_eq_true] using hdi
    · rw [dotStarLookahead_eq_any _ _ hdot]
      simpa [List.any_eq_true] using hsy

/-- Witness for C9 (amended): instantiating the characterization at
`Valid1Pass!`. -/
theorem password_policy_characterization_witness :
    8 ≤ "Valid1Pass!".data.length ∧
    (∀ c ∈ "Valid1Pass!".data, jsLineTerminator c = false) ∧
    (∃ c ∈ "Valid1Pass!".data, asciiLower c = true) ∧
    (∃ c ∈ "Valid1Pass!".data, asciiUpper c = true) ∧
    (∃ c ∈ "Valid1Pass!".data, jsDigit c = true) ∧
    (∃ c ∈ "Valid1Pass!".data, nonWordOrUnderscore c = true) :=
  (password_policy_characterization.1 "Valid1Pass!").mp (by decide)

end Zinema
